import Mathlib

/-!
Verification development for the lkpatcher repository (MediaTek LK
bootloader image patcher).  The Python sources under `src/lkpatcher/` are
shallowly embedded below:

* `PatchManager` (patcher.py): the patch catalog, its merge-from-override
  logic (`load_patches`), the hex validation (`_validate_patches`) and the
  selection of applicable categories (`get_applicable_patches` together
  with `PatcherConfig.should_apply_category` from config.py).
* `LkPatcher.patch` (patcher.py): the engine that walks the applicable
  rule set, applies rules against the image (dry-run or live), decides the
  zero-applied policy, saves the image and writes the report.

Python dictionaries are embedded as association lists in insertion order
(`dictSet` appends new keys, overwrites existing keys in place), and the
exceptions of exceptions.py become the constructors of `LkError`.
File system effects are injected through small oracle records (`FileRead`
for the override file, `FS` for writability of the output paths) and the
external liblk `LkImage.apply_patch` operation is an oracle function
returning `Option LkImage` (`some` = needle found and replaced, `none` =
`NeedleNotFoundException`).
-/

/-- One inner Python dict mapping needle (hex string) to patch. -/
abbrev RuleDict := List (String × String)

/-- The outer `self.patches` dict: category name to inner rule dict. -/
abbrev Catalog := List (String × RuleDict)

/-- Python `d[k] = v`: overwrite in place if `k` is present (keeping its
insertion position), else append `(k, v)` at the end. -/
def dictSet {α : Type} (d : List (String × α)) (k : String) (v : α) :
    List (String × α) :=
  match d with
  | [] => [(k, v)]
  | (k₁, v₁) :: rest =>
    if k₁ = k then (k, v) :: rest else (k₁, v₁) :: dictSet rest k v

/-- Python `d.update(src)`: fold the entries of `src` into `d` with
`dictSet`, in insertion order of `src`. -/
def dictUpdate (d src : RuleDict) : RuleDict :=
  src.foldl (fun acc kv => dictSet acc kv.1 kv.2) d

/-- `PatcherConfig` (config.py).  Only the fields the patch engine reads
are kept; `patch_categories` and `exclude_categories` are Python sets,
embedded as lists queried by membership. -/
structure PatcherConfig where
  verify_patch : Bool := true
  allow_incomplete : Bool := true
  dry_run : Bool := false
  patch_categories : List String := []
  exclude_categories : List String := []
deriving Repr, DecidableEq

/-- `PatcherConfig.should_apply_category` (config.py lines 198-214). -/
def shouldApplyCategory (cfg : PatcherConfig) (category : String) : Bool :=
  if cfg.exclude_categories.contains category then false
  else if cfg.patch_categories.isEmpty then true
  else cfg.patch_categories.contains category

/-- `PatchManager.get_applicable_patches` (patcher.py lines 189-204):
keep, in catalog order, the categories the config selects (the source
copies each inner dict; at value level this is a filter). -/
def getApplicablePatches (patches : Catalog) (cfg : PatcherConfig) :
    Catalog :=
  patches.filter (fun c => shouldApplyCategory cfg c.1)

/-- `PatchValidationError` (exceptions.py lines 94-116).  The source
formats the category and the failing field into the `reason` string; the
embedding keeps them structured: `badNeedle = true` for the
"Needle in category ... is not a valid hex string" reason and
`badNeedle = false` for the "Patch in category ..." reason. -/
structure PatchValidationError where
  needle : String
  patch : String
  category : String
  badNeedle : Bool
deriving Repr, DecidableEq

/-- The exception taxonomy of exceptions.py, plus `osError`, which models
an uncaught builtin `OSError`/`IOError` escaping from code that does not
guard a file write (the named file is the one being written). -/
inductive LkError where
  | invalidIOFile (reason : String) (file : String)
  | configurationError (detail : String) (file : Option String)
  | patchValidationError (e : PatchValidationError)
  | noNeedlesFound (image : String)
  | osError (file : String)
deriving Repr, DecidableEq

/-- A character the regex class `[0-9a-fA-F]` accepts. -/
def isHexChar (c : Char) : Bool :=
  (('0' ≤ c && c ≤ '9') || ('a' ≤ c && c ≤ 'f') || ('A' ≤ c && c ≤ 'F'))

/-- Python `re.match` truthiness for the raw pattern ^[0-9a-fA-F]+$ (patcher.py line
158-162).  In Python, `$` without `re.MULTILINE` matches at the end of
the string and also just before one newline at the very end, so the
accepted language is one-or-more hex digits optionally followed by a
single trailing newline. -/
def reMatchHex (s : String) : Bool :=
  let cs := s.data
  let core := if cs.getLast? = some '\n' then cs.dropLast else cs
  !core.isEmpty && core.all isHexChar

/-- The needle/patch entries of a catalog, flattened as
(category, needle, patch) triples. -/
def catalogEntries (c : Catalog) : List (String × String × String) :=
  c.flatMap (fun p => p.2.map (fun e => (p.1, e.1, e.2)))

/-- RuleDict loop of `PatchManager._validate_patches` over one category:
first failing entry, needle checked before patch (patcher.py
lines 160-174). -/
def findInvalidIn (category : String) (entries : RuleDict) :
    Option PatchValidationError :=
  match entries with
  | [] => none
  | (needle, patch) :: rest =>
    if !reMatchHex needle then some ⟨needle, patch, category, true⟩
    else if !reMatchHex patch then some ⟨needle, patch, category, false⟩
    else findInvalidIn category rest

/-- `PatchManager._validate_patches` (patcher.py lines 149-174) as the
first validation error over the whole catalog, `none` when every needle
and patch passes the hex pattern. -/
def findInvalid (patches : Catalog) : Option PatchValidationError :=
  match patches with
  | [] => none
  | (cat, entries) :: rest =>
    match findInvalidIn cat entries with
    | some e => some e
    | none => findInvalid rest

/-- The value of a top-level key of the override JSON object: either an
object mapping needle to patch, or some other JSON value (skipped with a
warning by `load_patches`). -/
inductive CategoryVal where
  | rules (ps : RuleDict)
  | invalid
deriving Repr, DecidableEq

/-- The parsed override object after the pop of the reserved "mode" key
(default "update"): the optional string value of that key, and the
remaining top-level items in insertion order.  (The comparison of
category with "mode" in the source loop is dead after the pop.) -/
structure PatchDoc where
  mode : Option String
  entries : List (String × CategoryVal)
deriving Repr, DecidableEq

/-- Outcome of opening and JSON-parsing the override file, the oracle for
the `open`/`json.load` calls at the top of `load_patches`. -/
inductive FileRead where
  | notFound
  | badJson (msg : String)
  | notDict
  | doc (d : PatchDoc)
deriving Repr, DecidableEq

/-- Python `str.lower()` on the ASCII mode strings, written over the
character list so the kernel can evaluate it. -/
def pyLower (s : String) : String :=
  ⟨s.data.map Char.toLower⟩

/-- One iteration of the category loop of `load_patches` (patcher.py
lines 125-142): skip non-dict payloads, create the category when absent,
then either merge (`update` mode) or rebind to the override dict. -/
def applyOverrideEntry (mode : String) (patches : Catalog)
    (e : String × CategoryVal) : Catalog :=
  match e.2 with
  | .invalid => patches
  | .rules ps =>
    let ensured :=
      if (patches.lookup e.1).isNone then dictSet patches e.1 [] else patches
    if mode = "update" then
      dictSet ensured e.1 (dictUpdate ((ensured.lookup e.1).getD []) ps)
    else
      dictSet ensured e.1 ps

/-- `PatchManager.load_patches` (patcher.py lines 97-147) at value level.
`FileNotFoundError` is caught (warning, catalog unchanged);
`json.JSONDecodeError` is re-raised as `InvalidIOFile`; a non-object top
level raises `ConfigurationError`; otherwise the mode is popped
(default "update", lowercased), `replace` clears the catalog, and every
remaining top-level item is folded in. -/
def loadPatches (patches : Catalog) (fr : FileRead) (fileName : String) :
    Except LkError Catalog :=
  match fr with
  | .notFound => .ok patches
  | .badJson m => .error (.invalidIOFile ("Invalid JSON: " ++ m) fileName)
  | .notDict =>
    .error (.configurationError "Patch file must contain a JSON object"
      (some fileName))
  | .doc d =>
    let mode := pyLower (d.mode.getD "update")
    let start := if mode = "replace" then [] else patches
    .ok (d.entries.foldl (applyOverrideEntry mode) start)

/-- The four inner dicts of `PatchManager.DEFAULT_PATCHES`
(patcher.py lines 40-66). -/
def fastbootRules : RuleDict :=
  [("2de9f04fadf5ac5d", "00207047"), ("f0b5adf5925d", "00207047")]

def dmVerityRules : RuleDict :=
  [("30b583b002ab0022", "00207047")]

def orangeStateRules : RuleDict :=
  [("08b50a4b7b441b681b68022b", "00207047"),
   ("08b50e4b7b441b681b68022b", "00207047")]

def redStateRules : RuleDict :=
  [("f0b5002489b0", "00207047")]

/-- `PatchManager.DEFAULT_PATCHES` as a value. -/
def DEFAULT_PATCHES : Catalog :=
  [("fastboot", fastbootRules), ("dm_verity", dmVerityRules),
   ("orange_state", orangeStateRules), ("red_state", redStateRules)]

/-- `PatchManager.__init__` (patcher.py lines 68-95) at value level:
start from the defaults, load the optional override file, then, when
`verify_patch` is set, validate the fully merged catalog and raise the
first `PatchValidationError`.  (In `LkPatcher.__init__` this runs before
the image is even loaded, so a validation failure aborts before any
image byte is touched.) -/
def initPatchManager (override : Option (FileRead × String))
    (cfg : PatcherConfig) : Except LkError Catalog := do
  let patches := DEFAULT_PATCHES
  let patches ←
    match override with
    | none => Except.ok patches
    | some fr => loadPatches patches fr.1 fr.2
  if cfg.verify_patch then
    match findInvalid patches with
    | some e => Except.error (.patchValidationError e)
    | none => Except.ok patches
  else
    Except.ok patches

/-- The external liblk `LkImage`, at the interface the engine uses:
`path` (an empty string models a `None` path), the raw byte buffer
`contents`, and the partition table rendered as name/description pairs
(used only by the diagnostic dump). -/
structure LkImage where
  path : String
  contents : List Nat
  partitions : List (String × String)
deriving Repr, DecidableEq

/-- The expression `self.image.path or "Unknown"` (patcher.py lines 294 and 364). -/
def imageIdent (img : LkImage) : String :=
  if img.path = "" then "Unknown" else img.path

/-- The oracle for `LkImage.apply_patch`: `some img2` means the needle
was found and replaced, producing the new buffer state; `none` means
liblk raised `NeedleNotFoundException`. -/
abbrev ApplyPatchFn := LkImage → String → String → Option LkImage

/-- Writability of the files the engine writes, the oracle for the
write-mode `open` / `image.save` calls in `LkPatcher.patch`. -/
structure FS where
  dumpWritable : Bool
  saveWritable : Bool
  reportWritable : Bool
deriving Repr, DecidableEq

/-- The report dict assembled at the end of `LkPatcher.patch`
(patcher.py lines 390-398); the wall-clock timestamp is external and
omitted. -/
structure PatchReport where
  image : String
  total_patches : Nat
  applied_patches : Nat
  skipped_patches : Nat
  dry_run : Bool
  results : List (String × List (String × Bool))
deriving Repr, DecidableEq

/-- Everything observable from one successful `LkPatcher.patch` call:
the final in-memory buffer, what was written to the output path (if
anything), whether the diagnostic dump and the report were written, the
report contents, and the returned path. -/
structure PatchRunOut where
  image : LkImage
  savedImage : Option LkImage
  dumpWritten : Bool
  reportWritten : Bool
  report : Option PatchReport
  returnedPath : String
deriving Repr, DecidableEq

/-- The inner rule loop of `LkPatcher.patch` (patcher.py lines 321-344)
over one category: returns the image buffer after the category, the
applied and skipped counts, and the per-needle result dict. -/
def processRules (applyP : ApplyPatchFn) (dryRun : Bool) (img : LkImage) :
    List (String × String) → LkImage × Nat × Nat × List (String × Bool)
  | [] => (img, 0, 0, [])
  | (needle, patch) :: rest =>
    if dryRun then
      let r := processRules applyP dryRun img rest
      (r.1, r.2.1 + 1, r.2.2.1, (needle, true) :: r.2.2.2)
    else
      match applyP img needle patch with
      | some img2 =>
        let r := processRules applyP dryRun img2 rest
        (r.1, r.2.1 + 1, r.2.2.1, (needle, true) :: r.2.2.2)
      | none =>
        let r := processRules applyP dryRun img rest
        (r.1, r.2.1, r.2.2.1 + 1, (needle, false) :: r.2.2.2)

/-- The category loop of `LkPatcher.patch` (patcher.py lines 313-344). -/
def processCategories (applyP : ApplyPatchFn) (dryRun : Bool)
    (img : LkImage) :
    Catalog → LkImage × Nat × Nat × List (String × List (String × Bool))
  | [] => (img, 0, 0, [])
  | (cat, rules) :: rest =>
    let r := processRules applyP dryRun img rules
    let rr := processCategories applyP dryRun r.1 rest
    (rr.1, r.2.1 + rr.2.1, r.2.2.1 + rr.2.2.1, (cat, r.2.2.2) :: rr.2.2.2)

/-- `total_patches` (patcher.py lines 301-303). -/
def countRules (cats : Catalog) : Nat :=
  (cats.map (fun c => c.2.length)).sum

/-- `LkPatcher.patch` (patcher.py lines 268-406).  Control flow, in
source order:

1. empty applicable set: return early in dry-run mode, else raise
   `NoNeedlesFound` (lines 285-294) — no dump, no save, no report;
2. run the category/rule loop (lines 313-344);
3. zero applied in live mode: write the partition dump — this `open` is
   unguarded, so an unwritable dump path raises an uncaught `OSError` —
   then raise `NoNeedlesFound` when `allow_incomplete` is false, else
   log a warning and continue (lines 353-368);
4. live mode: save the image, re-raising write failures as
   `InvalidIOFile` (lines 379-384);
5. write the report best-effort: a write failure is only a warning
   (lines 386-404).  The SHA-256 digest comparison (lines 309-311 and
   370-377) only logs and has no further effect, so it is omitted. -/
def lkPatch (applyP : ApplyPatchFn) (cfg : PatcherConfig)
    (catalog : Catalog) (img : LkImage) (fs : FS) (output : String) :
    Except LkError PatchRunOut :=
  let applicable := getApplicablePatches catalog cfg
  if applicable.isEmpty then
    if cfg.dry_run then
      .ok { image := img, savedImage := none, dumpWritten := false,
            reportWritten := false, report := none, returnedPath := output }
    else
      .error (.noNeedlesFound (imageIdent img))
  else
    let total := countRules applicable
    let r := processCategories applyP cfg.dry_run img applicable
    let img2 := r.1
    let applied := r.2.1
    let skipped := r.2.2.1
    let results := r.2.2.2
    let step : Except LkError Bool :=
      if applied == 0 && !cfg.dry_run then
        if !fs.dumpWritable then
          .error (.osError (img2.path ++ ".debug.txt"))
        else if !cfg.allow_incomplete then
          .error (.noNeedlesFound (imageIdent img2))
        else
          .ok true
      else
        .ok false
    match step with
    | .error e => .error e
    | .ok dumped =>
      let saveRes : Except LkError (Option LkImage) :=
        if !cfg.dry_run then
          if fs.saveWritable then .ok (some img2)
          else .error (.invalidIOFile "save failed" output)
        else
          .ok none
      match saveRes with
      | .error e => .error e
      | .ok saved =>
        .ok { image := img2, savedImage := saved, dumpWritten := dumped,
              reportWritten := fs.reportWritable,
              report := some { image := img2.path, total_patches := total,
                               applied_patches := applied,
                               skipped_patches := skipped,
                               dry_run := cfg.dry_run, results := results },
              returnedPath := output }

/-!
Reference-semantics model of `PatchManager.__init__` and
`load_patches`.  The value-level `loadPatches` above abstracts away
object identity; the definitions below make it explicit, because
`self.patches = self.DEFAULT_PATCHES.copy()` (patcher.py line 81) copies
only the outer dict: both dicts keep pointing at the same inner rule-dict
objects, and `self.patches[category].update(patches)` (line 140) mutates
those shared objects.  A `PyState` is the Python heap of inner dict
objects (addressed by allocation index) together with the class-level
`DEFAULT_PATCHES` attribute, which maps category names to addresses.
-/

/-- The heap of inner dict objects plus the class attribute
`PatchManager.DEFAULT_PATCHES` (an outer dict of category name to inner
object address). -/
structure PyState where
  cells : List RuleDict
  defaultPatches : List (String × Nat)
deriving Repr, DecidableEq

/-- Dereference one inner dict object (out-of-range addresses never
arise in the runs considered). -/
def heapGet (s : PyState) (a : Nat) : RuleDict :=
  s.cells.getD a []

/-- Mutate one inner dict object in place. -/
def heapSet (s : PyState) (a : Nat) (v : RuleDict) : PyState :=
  { s with cells := s.cells.set a v }

/-- Allocate a fresh inner dict object. -/
def heapAlloc (s : PyState) (v : RuleDict) : PyState × Nat :=
  ({ s with cells := s.cells ++ [v] }, s.cells.length)

/-- The interpreter state at module load: the four default inner dicts
live on the heap and `DEFAULT_PATCHES` points at them. -/
def initialPyState : PyState :=
  { cells := [fastbootRules, dmVerityRules, orangeStateRules,
              redStateRules],
    defaultPatches := [("fastboot", 0), ("dm_verity", 1),
                       ("orange_state", 2), ("red_state", 3)] }

/-- One iteration of the category loop of `load_patches` under reference
semantics: `self.patches[category] = {}` allocates, update mode mutates
the existing inner object through its address (patcher.py line 140), and
non-update mode rebinds the category to the override dict object. -/
def applyOverrideEntryRef (mode : String)
    (st : PyState × List (String × Nat)) (e : String × CategoryVal) :
    PyState × List (String × Nat) :=
  match e.2 with
  | .invalid => st
  | .rules ps =>
    let ensured :=
      match st.2.lookup e.1 with
      | some _ => st
      | none =>
        let al := heapAlloc st.1 []
        (al.1, dictSet st.2 e.1 al.2)
    match ensured.2.lookup e.1 with
    | none => ensured
    | some a =>
      if mode = "update" then
        (heapSet ensured.1 a (dictUpdate (heapGet ensured.1 a) ps),
         ensured.2)
      else
        let al := heapAlloc ensured.1 ps
        (al.1, dictSet ensured.2 e.1 al.2)

/-- `load_patches` on a successfully parsed override object, under
reference semantics. -/
def loadPatchesRef (s : PyState) (pm : List (String × Nat))
    (d : PatchDoc) : PyState × List (String × Nat) :=
  let mode := pyLower (d.mode.getD "update")
  let pm := if mode = "replace" then [] else pm
  d.entries.foldl (applyOverrideEntryRef mode) (s, pm)

/-- `PatchManager.__init__` under reference semantics:
`self.patches = self.DEFAULT_PATCHES.copy()` copies the outer dict only
(the returned address list is the same list as in the class attribute),
then the optional override document is merged in. -/
def newPatchManagerRef (s : PyState) (override : Option PatchDoc) :
    PyState × List (String × Nat) :=
  let pm := s.defaultPatches
  match override with
  | none => (s, pm)
  | some d => loadPatchesRef s pm d

/-- The value that the `self.patches` of a manager denotes: each category paired
with the current contents of its inner dict object. -/
def derefCatalog (s : PyState) (pm : List (String × Nat)) : Catalog :=
  pm.map (fun p => (p.1, heapGet s p.2))

/-- Heap state after a first `PatchManager(patches_file)` run whose
override file parses to `d`, starting from the freshly loaded module. -/
def afterFirstManager (d : PatchDoc) : PyState :=
  (newPatchManagerRef initialPyState (some d)).1

/-- The catalog a second `PatchManager()` (no override) observes when
constructed after that first one. -/
def secondManagerCatalog (d : PatchDoc) : Catalog :=
  let r := newPatchManagerRef (afterFirstManager d) none
  derefCatalog r.1 r.2

/-- Modelled from the spec: the hex-string grammar `^[0-9a-fA-F]+$` read
as a formal language — one or more hex digits and nothing else.  This is
the validation grammar stated by the spec, to be compared with `reMatchHex`,
the behaviour of the Python regex call the source performs. -/
def specHexGrammar (s : String) : Bool :=
  !s.data.isEmpty && s.data.all isHexChar

/-- Number of result entries with outcome `b`, summed over categories
(used to relate the report counters to the per-rule outcome map). -/
def countResults (b : Bool) (rs : List (String × List (String × Bool))) :
    Nat :=
  (rs.map (fun c => (c.2.filter (fun e => e.2 == b)).length)).sum

/-- An apply-patch oracle for which no needle is ever found. -/
def applyNone : ApplyPatchFn := fun _ _ _ => none

/-- A small concrete image for witnesses and counterexamples. -/
def demoImage : LkImage :=
  { path := "lk.img", contents := [1, 2, 3], partitions := [("lk", "0x100")] }

/-- All output files writable. -/
def fsAll : FS := ⟨true, true, true⟩

/-- Diagnostic dump path unwritable, everything else writable. -/
def fsNoDump : FS := ⟨false, true, true⟩

/-- A configuration that excludes every default category (the applicable
rule set is then empty). -/
def cfgAllExcluded : PatcherConfig :=
  { exclude_categories :=
      ["fastboot", "dm_verity", "orange_state", "red_state"] }

/-- An override whose needle carries a trailing newline: outside the
hex-string grammar, yet accepted by the Python regex call. -/
def newlineOverride : PatchDoc :=
  ⟨some "replace", [("fastboot", CategoryVal.rules [("aa\n", "00207047")])]⟩

/-- The report a dry run over the full default catalog produces. -/
def demoDryReport : PatchReport :=
  { image := "lk.img", total_patches := 6, applied_patches := 6,
    skipped_patches := 0, dry_run := true,
    results :=
      [("fastboot",
        [("2de9f04fadf5ac5d", true), ("f0b5adf5925d", true)]),
       ("dm_verity", [("30b583b002ab0022", true)]),
       ("orange_state",
        [("08b50a4b7b441b681b68022b", true),
         ("08b50e4b7b441b681b68022b", true)]),
       ("red_state", [("f0b5002489b0", true)])] }

/-- The full outcome of that dry run. -/
def demoDryRun : PatchRunOut :=
  { image := demoImage, savedImage := none, dumpWritten := false,
    reportWritten := true, report := some demoDryReport,
    returnedPath := "w10.img" }

/-! Helper lemmas. -/

theorem lookup_dictSet {α : Type} (d : List (String × α)) (k : String)
    (v : α) (k' : String) :
    (dictSet d k v).lookup k' = if k' = k then some v else d.lookup k' := by
  induction d with
  | nil =>
    by_cases h : k' = k
    · simp [dictSet, List.lookup, h]
    · have hb : (k' == k) = false := by simp [h]
      simp [dictSet, List.lookup, hb, h]
  | cons hd tl ih =>
    obtain ⟨k₁, v₁⟩ := hd
    by_cases h1 : k₁ = k
    · subst h1
      by_cases h : k' = k₁
      · simp [dictSet, List.lookup, h]
      · have hb : (k' == k₁) = false := by simp [h]
        simp [dictSet, List.lookup, hb, h]
    · by_cases h : k' = k₁
      · subst h
        have hne : ¬(k' = k) := h1
        simp [dictSet, h1, List.lookup, hne]
      · have hb : (k' == k₁) = false := by simp [h]
        simp [dictSet, h1, List.lookup, hb, h, ih]

theorem shouldApply_iff (cfg : PatcherConfig) (cat : String) :
    shouldApplyCategory cfg cat = true ↔
      cfg.exclude_categories.contains cat = false
      ∧ (cfg.patch_categories = []
         ∨ cfg.patch_categories.contains cat = true) := by
  unfold shouldApplyCategory
  cases h1 : cfg.exclude_categories.contains cat <;>
    cases h2 : cfg.patch_categories.isEmpty <;>
      simp_all [List.isEmpty_iff]

/-- C9: loading an override source — a missing override file is
recoverable and leaves the catalog unchanged (so a manager keeps the
built-in defaults), a top level that is not a JSON object raises
`ConfigurationError`, and malformed JSON in an existing file raises the
fatal `InvalidIOFile`. -/
theorem claim_C9 (patches : Catalog) (name msg : String) :
    loadPatches patches .notFound name = .ok patches
    ∧ loadPatches patches (.badJson msg) name
        = .error (.invalidIOFile ("Invalid JSON: " ++ msg) name)
    ∧ loadPatches patches .notDict name
        = .error (.configurationError
            "Patch file must contain a JSON object" (some name))
    ∧ initPatchManager (some (.notFound, name)) {} = .ok DEFAULT_PATCHES := by
  refine ⟨rfl, rfl, rfl, ?_⟩
  have h : findInvalid DEFAULT_PATCHES = none := by decide
  simp [initPatchManager, loadPatches, Bind.bind, Except.bind, h]

/-- C7: selection is a pure function of the catalog and the two category
sets — a category is applicable iff it is not excluded and either the
include set is empty or names it; with both sets empty the full catalog
is returned; and an excluded category never appears, even when the
include set also names it. -/
theorem claim_C7 (catalog : Catalog) (cfg : PatcherConfig) (cat : String)
    (rules : RuleDict) :
    ((cat, rules) ∈ getApplicablePatches catalog cfg
       ↔ (cat, rules) ∈ catalog
         ∧ cfg.exclude_categories.contains cat = false
         ∧ (cfg.patch_categories = []
            ∨ cfg.patch_categories.contains cat = true))
    ∧ getApplicablePatches catalog
        { cfg with patch_categories := [], exclude_categories := [] }
        = catalog
    ∧ (cfg.exclude_categories.contains cat = true →
        (cat, rules) ∉ getApplicablePatches catalog cfg) := by
  refine ⟨?_, ?_, ?_⟩
  · rw [getApplicablePatches, List.mem_filter]
    rw [shouldApply_iff]
  · rw [getApplicablePatches]
    apply List.filter_eq_self.mpr
    intro a _
    simp [shouldApplyCategory]
  · intro hex hmem
    rw [getApplicablePatches, List.mem_filter] at hmem
    have h2 := (shouldApply_iff cfg cat).mp hmem.2
    rw [hex] at h2
    exact Bool.true_eq_false.mp h2.1

theorem toLower_update : pyLower "update" = "update" := by decide

theorem toLower_replace : pyLower "replace" = "replace" := by decide

/-- C5: merge mode `update` on a single override category merges its
rules into that category (new needles added, existing needles
overwritten), leaving every other category untouched; merge mode
`replace` discards the whole prior catalog and yields exactly the
categories of the override; and the concrete example of the spec computes as
stated (the two result orders agree as mappings). -/
theorem claim_C5 (catalog : Catalog) (cat : String) (ps : RuleDict)
    (f : String) :
    (∃ merged,
      loadPatches catalog (.doc ⟨some "update", [(cat, .rules ps)]⟩) f
          = .ok merged
      ∧ merged.lookup cat
          = some (dictUpdate ((catalog.lookup cat).getD []) ps)
      ∧ ∀ c, c ≠ cat → merged.lookup c = catalog.lookup c)
    ∧ loadPatches catalog (.doc ⟨some "replace", [(cat, .rules ps)]⟩) f
        = .ok [(cat, ps)]
    ∧ loadPatches [("fastboot", [("cc", "dd")])]
        (.doc ⟨some "update", [("fastboot", .rules [("aa", "bb")])]⟩)
        "override.json"
        = .ok [("fastboot", [("cc", "dd"), ("aa", "bb")])]
    ∧ (∀ k, (([("cc", "dd"), ("aa", "bb")] : RuleDict).lookup k)
          = (([("aa", "bb"), ("cc", "dd")] : RuleDict).lookup k)) := by
  refine ⟨?_, ?_, rfl, ?_⟩
  · refine ⟨applyOverrideEntry "update" catalog (cat, .rules ps), ?_, ?_, ?_⟩
    · simp [loadPatches, toLower_update]
    · rw [applyOverrideEntry]
      cases hl : catalog.lookup cat with
      | none => simp [hl, lookup_dictSet]
      | some d0 => simp [hl, lookup_dictSet]
    · intro c hc
      rw [applyOverrideEntry]
      cases hl : catalog.lookup cat with
      | none => simp [hl, lookup_dictSet, hc]
      | some d0 => simp [hl, lookup_dictSet, hc]
  · simp [loadPatches, toLower_replace, applyOverrideEntry, dictSet,
      List.lookup]
  · intro k
    by_cases h1 : k = "aa"
    · subst h1; decide
    · by_cases h2 : k = "cc"
      · subst h2; decide
      · have b1 : (k == "aa") = false := by simp [h1]
        have b2 : (k == "cc") = false := by simp [h2]
        simp [List.lookup, b1, b2]

theorem claim_C5_witness :
    loadPatches DEFAULT_PATCHES
      (.doc ⟨some "replace", [("fastboot", .rules [("aa", "bb")])]⟩)
      "o.json"
      = .ok [("fastboot", [("aa", "bb")])] :=
  (claim_C5 DEFAULT_PATCHES "fastboot" [("aa", "bb")] "o.json").2.1

theorem claim_C7_witness :
    ("fastboot", fastbootRules) ∉ getApplicablePatches DEFAULT_PATCHES
      { patch_categories := ["fastboot"],
        exclude_categories := ["fastboot"] } :=
  (claim_C7 DEFAULT_PATCHES
    { patch_categories := ["fastboot"], exclude_categories := ["fastboot"] }
    "fastboot" fastbootRules).2.2 rfl

theorem processRules_dry (applyP : ApplyPatchFn) (img : LkImage)
    (rules : List (String × String)) :
    processRules applyP true img rules
      = (img, rules.length, 0, rules.map (fun e => (e.1, true))) := by
  induction rules generalizing img with
  | nil => simp [processRules]
  | cons hd tl ih =>
    obtain ⟨n, p⟩ := hd
    simp [processRules, ih]

theorem processCategories_dry (applyP : ApplyPatchFn) (img : LkImage)
    (cats : Catalog) :
    processCategories applyP true img cats
      = (img, countRules cats, 0,
         cats.map (fun c => (c.1, c.2.map (fun e => (e.1, true))))) := by
  induction cats generalizing img with
  | nil => simp [processCategories, countRules]
  | cons hd tl ih =>
    obtain ⟨cat, rules⟩ := hd
    simp [processCategories, processRules_dry, ih, countRules]

theorem processRules_zero (applyP : ApplyPatchFn)
    (rules : List (String × String)) :
    ∀ img, (processRules applyP false img rules).2.1 = 0 →
      processRules applyP false img rules
        = (img, 0, rules.length, rules.map (fun e => (e.1, false))) := by
  induction rules with
  | nil => intro img _; simp [processRules]
  | cons hd tl ih =>
    intro img h
    obtain ⟨n, p⟩ := hd
    cases happ : applyP img n p with
    | some img2 => simp [processRules, happ] at h
    | none =>
      have h2 : (processRules applyP false img tl).2.1 = 0 := by
        simpa [processRules, happ] using h
      simp [processRules, happ, ih img h2]

theorem processCategories_zero (applyP : ApplyPatchFn) (cats : Catalog) :
    ∀ img, (processCategories applyP false img cats).2.1 = 0 →
      processCategories applyP false img cats
        = (img, 0, countRules cats,
           cats.map (fun c => (c.1, c.2.map (fun e => (e.1, false))))) := by
  induction cats with
  | nil => intro img _; simp [processCategories, countRules]
  | cons hd tl ih =>
    intro img h
    obtain ⟨cat, rules⟩ := hd
    have hsum : (processRules applyP false img rules).2.1
        + (processCategories applyP false
            (processRules applyP false img rules).1 tl).2.1 = 0 := by
      simpa [processCategories] using h
    have hr : (processRules applyP false img rules).2.1 = 0 := by omega
    have hc : (processCategories applyP false
        (processRules applyP false img rules).1 tl).2.1 = 0 := by omega
    have her := processRules_zero applyP rules img hr
    have hc' : (processCategories applyP false img tl).2.1 = 0 := by
      rw [her] at hc; exact hc
    simp [processCategories, her, ih img hc', countRules]

theorem processRules_counts (applyP : ApplyPatchFn) (d : Bool)
    (rules : List (String × String)) :
    ∀ img,
      (processRules applyP d img rules).2.1
          + (processRules applyP d img rules).2.2.1 = rules.length
      ∧ (processRules applyP d img rules).2.2.2.map Prod.fst
          = rules.map Prod.fst
      ∧ (processRules applyP d img rules).2.1
          = ((processRules applyP d img rules).2.2.2.filter
              (fun e => e.2)).length
      ∧ (processRules applyP d img rules).2.2.1
          = ((processRules applyP d img rules).2.2.2.filter
              (fun e => !e.2)).length := by
  induction rules with
  | nil => intro img; simp [processRules]
  | cons hd tl ih =>
    intro img
    obtain ⟨n, p⟩ := hd
    cases d with
    | true =>
      obtain ⟨ih1, ih2, ih3, ih4⟩ := ih img
      refine ⟨?_, ?_, ?_, ?_⟩ <;> simp [processRules, ih2]
      · omega
      · omega
      · exact ih4
    | false =>
      cases happ : applyP img n p with
      | some img2 =>
        obtain ⟨ih1, ih2, ih3, ih4⟩ := ih img2
        refine ⟨?_, ?_, ?_, ?_⟩ <;> simp [processRules, happ, ih2]
        · omega
        · omega
        · exact ih4
      | none =>
        obtain ⟨ih1, ih2, ih3, ih4⟩ := ih img
        refine ⟨?_, ?_, ?_, ?_⟩ <;> simp [processRules, happ, ih2]
        · omega
        · exact ih3
        · omega

theorem processCategories_counts (applyP : ApplyPatchFn) (d : Bool)
    (cats : Catalog) :
    ∀ img,
      (processCategories applyP d img cats).2.1
          + (processCategories applyP d img cats).2.2.1 = countRules cats
      ∧ (processCategories applyP d img cats).2.2.2.map
            (fun c => (c.1, c.2.map Prod.fst))
          = cats.map (fun c => (c.1, c.2.map Prod.fst))
      ∧ (processCategories applyP d img cats).2.1
          = countResults true (processCategories applyP d img cats).2.2.2
      ∧ (processCategories applyP d img cats).2.2.1
          = countResults false (processCategories applyP d img cats).2.2.2
    := by
  induction cats with
  | nil => intro img; simp [processCategories, countRules, countResults]
  | cons hd tl ih =>
    intro img
    obtain ⟨cat, rules⟩ := hd
    obtain ⟨r1, r2, r3, r4⟩ := processRules_counts applyP d rules img
    obtain ⟨ih1, ih2, ih3, ih4⟩ :=
      ih (processRules applyP d img rules).1
    refine ⟨?_, ?_, ?_, ?_⟩
    · simp only [processCategories, countRules, List.map_cons,
        List.sum_cons] at ih1 ⊢
      omega
    · simp [processCategories, r2, ih2]
    · simp only [processCategories, countResults, List.map_cons,
        List.sum_cons] at ih3 ⊢
      simp only [beq_true] at r3 ih3 ⊢
      omega
    · simp only [processCategories, countResults, List.map_cons,
        List.sum_cons] at ih4 ⊢
      simp only [beq_false] at r4 ih4 ⊢
      omega

theorem isEmpty_false_of_ne {α : Type} (l : List α) (h : l ≠ []) :
    l.isEmpty = false := by
  cases l with
  | nil => exact absurd rfl h
  | cons a t => rfl

/-- C1 (amended): with an empty applicable rule set and `dry_run=false`,
`LkPatcher.patch` raises `NoNeedlesFound` carrying the image identity
regardless of `allow_incomplete` — it neither writes a diagnostic dump
nor saves an image (the raise happens before either). -/
theorem claim_C1_amended (applyP : ApplyPatchFn) (cfg : PatcherConfig)
    (catalog : Catalog) (img : LkImage) (fs : FS) (output : String)
    (hempty : getApplicablePatches catalog cfg = [])
    (hlive : cfg.dry_run = false) :
    lkPatch applyP cfg catalog img fs output
      = .error (.noNeedlesFound (imageIdent img)) := by
  simp [lkPatch, hempty, hlive]

/-- C1, counterexample to the claim as stated: a live run with
`allow_incomplete=true` and an empty applicable rule set (every default
category excluded) does not complete — it raises `NoNeedlesFound` — so
no diagnostic dump is written and no image is saved. -/
theorem claim_C1_counterexample :
    cfgAllExcluded.dry_run = false
    ∧ cfgAllExcluded.allow_incomplete = true
    ∧ getApplicablePatches DEFAULT_PATCHES cfgAllExcluded = []
    ∧ lkPatch applyNone cfgAllExcluded DEFAULT_PATCHES demoImage fsAll
        "patched.img"
      = .error (.noNeedlesFound "lk.img") :=
  ⟨rfl, rfl, rfl, rfl⟩

theorem claim_C1_witness :
    lkPatch applyNone cfgAllExcluded DEFAULT_PATCHES demoImage fsAll
        "out2.img"
      = .error (.noNeedlesFound (imageIdent demoImage)) :=
  claim_C1_amended applyNone cfgAllExcluded DEFAULT_PATCHES demoImage fsAll
    "out2.img" rfl rfl

/-- C2 (amended): when a live run applies zero rules, the diagnostic
dump write is attempted with no exception handler, so an unwritable dump
path is fatal: the run stops with the propagated `OSError` and the image
is never saved.  (Only the report write at the end of the function is
best-effort.) -/
theorem claim_C2_amended (applyP : ApplyPatchFn) (cfg : PatcherConfig)
    (catalog : Catalog) (img : LkImage) (fs : FS) (output : String)
    (hlive : cfg.dry_run = false)
    (hne : getApplicablePatches catalog cfg ≠ [])
    (hzero : (processCategories applyP false img
        (getApplicablePatches catalog cfg)).2.1 = 0)
    (hdump : fs.dumpWritable = false) :
    lkPatch applyP cfg catalog img fs output
      = .error (.osError (img.path ++ ".debug.txt")) := by
  have hie := isEmpty_false_of_ne _ hne
  have hz := processCategories_zero applyP
    (getApplicablePatches catalog cfg) img hzero
  simp [lkPatch, hie, hlive, hz, hdump]

/-- C2, counterexample to the claim as stated: zero rules applied in a
live run with the dump path unwritable — the patch operation does not
proceed; it fails with the uncaught `OSError` from the dump write. -/
theorem claim_C2_counterexample :
    lkPatch applyNone {} DEFAULT_PATCHES demoImage fsNoDump "patched.img"
      = .error (.osError "lk.img.debug.txt") := rfl

theorem claim_C2_witness :
    lkPatch applyNone {} DEFAULT_PATCHES demoImage fsNoDump "w2.img"
      = .error (.osError (demoImage.path ++ ".debug.txt")) :=
  claim_C2_amended applyNone {} DEFAULT_PATCHES demoImage fsNoDump "w2.img"
    rfl (by decide) (by decide) rfl

/-- C4: in a live run with a non-empty applicable rule set and zero
rules applied, `NoNeedlesFound` (carrying the image identity) is raised
iff `allow_incomplete=false`; with `allow_incomplete=true` the run
continues after a warning and still produces the outcome record, saving
the unmodified image (the dump path must be writable, since the dump is
attempted in both branches). -/
theorem claim_C4 (applyP : ApplyPatchFn) (cfg : PatcherConfig)
    (catalog : Catalog) (img : LkImage) (fs : FS) (output : String)
    (hlive : cfg.dry_run = false)
    (hne : getApplicablePatches catalog cfg ≠ [])
    (hzero : (processCategories applyP false img
        (getApplicablePatches catalog cfg)).2.1 = 0)
    (hdump : fs.dumpWritable = true)
    (hsave : fs.saveWritable = true) :
    (lkPatch applyP cfg catalog img fs output
        = .error (.noNeedlesFound (imageIdent img))
      ↔ cfg.allow_incomplete = false)
    ∧ (cfg.allow_incomplete = true →
        lkPatch applyP cfg catalog img fs output
          = .ok { image := img, savedImage := some img,
                  dumpWritten := true,
                  reportWritten := fs.reportWritable,
                  report := some
                    { image := img.path,
                      total_patches :=
                        countRules (getApplicablePatches catalog cfg),
                      applied_patches := 0,
                      skipped_patches :=
                        countRules (getApplicablePatches catalog cfg),
                      dry_run := false,
                      results := (getApplicablePatches catalog cfg).map
                        (fun c => (c.1, c.2.map (fun e => (e.1, false)))) },
                  returnedPath := output }) := by
  have hie := isEmpty_false_of_ne _ hne
  have hz := processCategories_zero applyP
    (getApplicablePatches catalog cfg) img hzero
  cases hai : cfg.allow_incomplete with
  | false =>
    have heq : lkPatch applyP cfg catalog img fs output
        = .error (.noNeedlesFound (imageIdent img)) := by
      simp [lkPatch, hie, hlive, hz, hdump, hai]
    exact ⟨by simp [heq], by simp [hai]⟩
  | true =>
    have heq : lkPatch applyP cfg catalog img fs output
        = .ok { image := img, savedImage := some img,
                dumpWritten := true,
                reportWritten := fs.reportWritable,
                report := some
                  { image := img.path,
                    total_patches :=
                      countRules (getApplicablePatches catalog cfg),
                    applied_patches := 0,
                    skipped_patches :=
                      countRules (getApplicablePatches catalog cfg),
                    dry_run := false,
                    results := (getApplicablePatches catalog cfg).map
                      (fun c => (c.1, c.2.map (fun e => (e.1, false)))) },
                returnedPath := output } := by
      simp [lkPatch, hie, hlive, hz, hdump, hai, hsave]
    exact ⟨by simp [heq], fun _ => heq⟩

theorem claim_C4_witness :
    lkPatch applyNone { allow_incomplete := false } DEFAULT_PATCHES
        demoImage fsAll "c4.img"
      = .error (.noNeedlesFound (imageIdent demoImage)) :=
  (claim_C4 applyNone { allow_incomplete := false } DEFAULT_PATCHES
    demoImage fsAll "c4.img" rfl (by decide) (by decide) rfl rfl).1.mpr rfl

/-- C8: a dry run over a non-empty applicable rule set records every
rule as applied without touching the image buffer: the final buffer is
the input buffer, the applied count equals the total rule count, the
skipped count is zero, every per-rule outcome is `true`, and nothing is
written to the output path. -/
theorem claim_C8 (applyP : ApplyPatchFn) (cfg : PatcherConfig)
    (catalog : Catalog) (img : LkImage) (fs : FS) (output : String)
    (hdry : cfg.dry_run = true)
    (hne : getApplicablePatches catalog cfg ≠ []) :
    lkPatch applyP cfg catalog img fs output
      = .ok { image := img, savedImage := none, dumpWritten := false,
              reportWritten := fs.reportWritable,
              report := some
                { image := img.path,
                  total_patches :=
                    countRules (getApplicablePatches catalog cfg),
                  applied_patches :=
                    countRules (getApplicablePatches catalog cfg),
                  skipped_patches := 0,
                  dry_run := true,
                  results := (getApplicablePatches catalog cfg).map
                    (fun c => (c.1, c.2.map (fun e => (e.1, true)))) },
              returnedPath := output } := by
  have hie := isEmpty_false_of_ne _ hne
  simp [lkPatch, hie, hdry, processCategories_dry]

theorem claim_C8_witness :
    lkPatch applyNone { dry_run := true } DEFAULT_PATCHES demoImage fsAll
        "c8.img"
      = .ok { image := demoImage, savedImage := none, dumpWritten := false,
              reportWritten := fsAll.reportWritable,
              report := some
                { image := demoImage.path,
                  total_patches := countRules
                    (getApplicablePatches DEFAULT_PATCHES
                      { dry_run := true }),
                  applied_patches := countRules
                    (getApplicablePatches DEFAULT_PATCHES
                      { dry_run := true }),
                  skipped_patches := 0,
                  dry_run := true,
                  results := (getApplicablePatches DEFAULT_PATCHES
                      { dry_run := true }).map
                    (fun c => (c.1, c.2.map (fun e => (e.1, true)))) },
              returnedPath := "c8.img" } :=
  claim_C8 applyNone { dry_run := true } DEFAULT_PATCHES demoImage fsAll
    "c8.img" rfl (by decide)

theorem lkPatch_ok_shape (applyP : ApplyPatchFn) (cfg : PatcherConfig)
    (catalog : Catalog) (img : LkImage) (fs : FS) (output : String)
    (res : PatchRunOut)
    (hok : lkPatch applyP cfg catalog img fs output = .ok res) :
    res.report = none
    ∨ res.report = some
        { image := (processCategories applyP cfg.dry_run img
            (getApplicablePatches catalog cfg)).1.path,
          total_patches := countRules (getApplicablePatches catalog cfg),
          applied_patches := (processCategories applyP cfg.dry_run img
            (getApplicablePatches catalog cfg)).2.1,
          skipped_patches := (processCategories applyP cfg.dry_run img
            (getApplicablePatches catalog cfg)).2.2.1,
          dry_run := cfg.dry_run,
          results := (processCategories applyP cfg.dry_run img
            (getApplicablePatches catalog cfg)).2.2.2 } := by
  by_cases hie : (getApplicablePatches catalog cfg).isEmpty = true
  · by_cases hd : cfg.dry_run = true
    · simp [lkPatch, hie, hd] at hok
      subst hok
      left
      rfl
    · rw [Bool.not_eq_true] at hd
      simp [lkPatch, hie, hd] at hok
  · rw [Bool.not_eq_true] at hie
    by_cases hd : cfg.dry_run = true
    · simp [lkPatch, hie, hd] at hok
      subst hok
      right
      rw [hd]
    · rw [Bool.not_eq_true] at hd
      by_cases hz : (processCategories applyP cfg.dry_run img
          (getApplicablePatches catalog cfg)).2.1 = 0
      · rw [hd] at hz
        by_cases hdw : fs.dumpWritable = true
        · by_cases hal : cfg.allow_incomplete = true
          · by_cases hsw : fs.saveWritable = true
            · simp [lkPatch, hie, hd, hz, hdw, hal, hsw] at hok
              subst hok
              right
              rw [hd, hz]
            · rw [Bool.not_eq_true] at hsw
              simp [lkPatch, hie, hd, hz, hdw, hal, hsw] at hok
          · rw [Bool.not_eq_true] at hal
            simp [lkPatch, hie, hd, hz, hdw, hal] at hok
        · rw [Bool.not_eq_true] at hdw
          simp [lkPatch, hie, hd, hz, hdw] at hok
      · rw [hd] at hz
        by_cases hsw : fs.saveWritable = true
        · simp [lkPatch, hie, hd, hz, hsw] at hok
          subst hok
          right
          rw [hd]
        · rw [Bool.not_eq_true] at hsw
          simp [lkPatch, hie, hd, hz, hsw] at hok

/-- C10: every run that reaches the report stage satisfies the counter
invariant — applied plus skipped equals the total rule count of the
applicable rule set, the outcome map covers exactly the applicable
rules (category by category, needle by needle), the applied counter
counts exactly the `true` entries and the skipped counter exactly the
`false` entries (a per-rule needle-not-found is recorded as `false`,
never surfaced as an error). -/
theorem claim_C10 (applyP : ApplyPatchFn) (cfg : PatcherConfig)
    (catalog : Catalog) (img : LkImage) (fs : FS) (output : String)
    (res : PatchRunOut) (r : PatchReport)
    (hok : lkPatch applyP cfg catalog img fs output = .ok res)
    (hrep : res.report = some r) :
    r.applied_patches + r.skipped_patches = r.total_patches
    ∧ r.total_patches = countRules (getApplicablePatches catalog cfg)
    ∧ r.results.map (fun c => (c.1, c.2.map Prod.fst))
        = (getApplicablePatches catalog cfg).map
            (fun c => (c.1, c.2.map Prod.fst))
    ∧ r.applied_patches = countResults true r.results
    ∧ r.skipped_patches = countResults false r.results := by
  rcases lkPatch_ok_shape applyP cfg catalog img fs output res hok with
    hnone | hsome
  · rw [hnone] at hrep
    exact Option.noConfusion hrep
  · rw [hsome] at hrep
    injection hrep with h
    subst h
    obtain ⟨c1, c2, c3, c4⟩ := processCategories_counts applyP cfg.dry_run
      (getApplicablePatches catalog cfg) img
    exact ⟨c1, rfl, c2, c3, c4⟩

theorem claim_C10_witness :
    demoDryReport.applied_patches + demoDryReport.skipped_patches
        = demoDryReport.total_patches
    ∧ demoDryReport.total_patches
        = countRules (getApplicablePatches DEFAULT_PATCHES
            { dry_run := true })
    ∧ demoDryReport.results.map (fun c => (c.1, c.2.map Prod.fst))
        = (getApplicablePatches DEFAULT_PATCHES { dry_run := true }).map
            (fun c => (c.1, c.2.map Prod.fst))
    ∧ demoDryReport.applied_patches
        = countResults true demoDryReport.results
    ∧ demoDryReport.skipped_patches
        = countResults false demoDryReport.results :=
  claim_C10 applyNone { dry_run := true } DEFAULT_PATCHES demoImage fsAll
    "w10.img" demoDryRun demoDryReport rfl rfl

theorem findInvalidIn_none_iff (cat : String) (entries : RuleDict) :
    findInvalidIn cat entries = none ↔
      ∀ e ∈ entries, reMatchHex e.1 = true ∧ reMatchHex e.2 = true := by
  induction entries with
  | nil => simp [findInvalidIn]
  | cons hd tl ih =>
    obtain ⟨n, p⟩ := hd
    cases h1 : reMatchHex n <;> cases h2 : reMatchHex p <;>
      simp [findInvalidIn, h1, h2, ih, List.forall_mem_cons]

theorem findInvalid_none_iff (patches : Catalog) :
    findInvalid patches = none ↔
      ∀ t ∈ catalogEntries patches,
        reMatchHex t.2.1 = true ∧ reMatchHex t.2.2 = true := by
  induction patches with
  | nil => simp [findInvalid, catalogEntries]
  | cons hd tl ih =>
    obtain ⟨cat, entries⟩ := hd
    rw [findInvalid]
    cases hfi : findInvalidIn cat entries with
    | some e0 =>
      have hnn : ¬(findInvalidIn cat entries = none) := by simp [hfi]
      rw [findInvalidIn_none_iff] at hnn
      simp only [catalogEntries, List.flatMap_cons, List.forall_mem_append,
        List.forall_mem_map]
      constructor
      · intro h; exact absurd h (by simp)
      · intro h
        exact absurd (fun e he => h.1 e he) hnn
    | none =>
      have hall := (findInvalidIn_none_iff cat entries).mp hfi
      simp only [catalogEntries, List.flatMap_cons, List.forall_mem_append,
        List.forall_mem_map]
      rw [ih]
      simp only [catalogEntries]
      constructor
      · intro h; exact ⟨fun e he => hall e he, h⟩
      · intro h; exact h.2

theorem findInvalidIn_some (cat : String) (entries : RuleDict)
    (e : PatchValidationError) (h : findInvalidIn cat entries = some e) :
    e.category = cat ∧ (e.needle, e.patch) ∈ entries
    ∧ (e.badNeedle = true → reMatchHex e.needle = false)
    ∧ (e.badNeedle = false →
        reMatchHex e.needle = true ∧ reMatchHex e.patch = false) := by
  induction entries with
  | nil => simp [findInvalidIn] at h
  | cons hd tl ih =>
    obtain ⟨n, p⟩ := hd
    cases h1 : reMatchHex n
    · rw [findInvalidIn] at h
      rw [h1] at h
      simp only [Bool.not_false, if_true] at h
      injection h with h
      subst h
      exact ⟨rfl, by simp, fun _ => h1, by simp⟩
    · cases h2 : reMatchHex p
      · rw [findInvalidIn] at h
        rw [h1, h2] at h
        simp only [Bool.not_true, Bool.not_false, if_false, if_true] at h
        injection h with h
        subst h
        exact ⟨rfl, by simp, by simp, fun _ => ⟨h1, h2⟩⟩
      · rw [findInvalidIn] at h
        rw [h1, h2] at h
        simp only [Bool.not_true, if_false] at h
        obtain ⟨g1, g2, g3, g4⟩ := ih h
        exact ⟨g1, List.mem_cons_of_mem _ g2, g3, g4⟩

theorem findInvalid_some (patches : Catalog) (e : PatchValidationError)
    (h : findInvalid patches = some e) :
    (e.category, e.needle, e.patch) ∈ catalogEntries patches
    ∧ (e.badNeedle = true → reMatchHex e.needle = false)
    ∧ (e.badNeedle = false →
        reMatchHex e.needle = true ∧ reMatchHex e.patch = false) := by
  induction patches with
  | nil => simp [findInvalid] at h
  | cons hd tl ih =>
    obtain ⟨cat, entries⟩ := hd
    rw [findInvalid] at h
    cases hfi : findInvalidIn cat entries with
    | some e0 =>
      rw [hfi] at h
      injection h with h
      subst h
      obtain ⟨he1, he2, he3, he4⟩ := findInvalidIn_some cat entries e0 hfi
      refine ⟨?_, he3, he4⟩
      simp only [catalogEntries, List.flatMap_cons, List.mem_append]
      left
      rw [List.mem_map]
      exact ⟨(e0.needle, e0.patch), he2, by rw [he1]⟩
    | none =>
      rw [hfi] at h
      obtain ⟨g1, g2, g3⟩ := ih h
      refine ⟨?_, g2, g3⟩
      simp only [catalogEntries, List.flatMap_cons, List.mem_append]
      right
      simpa [catalogEntries] using g1

/-- C6 (amended): with `verify_patch` enabled, validation runs once over
the fully merged catalog (the override is merged first, so a later
override can correct an earlier bad entry before validation sees it);
construction succeeds iff every needle and patch of the merged catalog
passes the Python regex check of the pattern ^[0-9a-fA-F]+$ — which
accepts one or more hex digits optionally followed by a single trailing
newline — and on failure the raised validation error carries the
category, the needle, the patch of an actually malformed entry of the
merged catalog, and records whether the needle or the patch was the
malformed field.  The manager (and hence the error) is constructed
before the image is loaded, so a failure aborts before any image byte is
touched. -/
theorem claim_C6_amended (fr : FileRead) (name : String)
    (cfg : PatcherConfig) (merged : Catalog)
    (hv : cfg.verify_patch = true)
    (hl : loadPatches DEFAULT_PATCHES fr name = .ok merged) :
    (initPatchManager (some (fr, name)) cfg = .ok merged
      ↔ ∀ t ∈ catalogEntries merged,
          reMatchHex t.2.1 = true ∧ reMatchHex t.2.2 = true)
    ∧ (∀ err, initPatchManager (some (fr, name)) cfg
          = .error (.patchValidationError err) →
        (err.category, err.needle, err.patch) ∈ catalogEntries merged
        ∧ (err.badNeedle = true → reMatchHex err.needle = false)
        ∧ (err.badNeedle = false →
            reMatchHex err.needle = true
            ∧ reMatchHex err.patch = false)) := by
  have hinit : initPatchManager (some (fr, name)) cfg
      = match findInvalid merged with
        | some e => .error (.patchValidationError e)
        | none => .ok merged := by
    simp [initPatchManager, hl, Bind.bind, Except.bind, hv]
  cases hfi : findInvalid merged with
  | none =>
    rw [hfi] at hinit
    constructor
    · rw [hinit]
      simp only [true_iff]
      exact (findInvalid_none_iff merged).mp hfi
    · intro err herr
      rw [hinit] at herr
      exact Except.noConfusion herr
  | some e0 =>
    rw [hfi] at hinit
    constructor
    · rw [hinit]
      constructor
      · intro habs
        exact Except.noConfusion habs
      · intro hall
        rw [← findInvalid_none_iff] at hall
        rw [hfi] at hall
        exact Option.noConfusion hall
    · intro err herr
      rw [hinit] at herr
      injection herr with herr
      injection herr with herr
      subst herr
      exact findInvalid_some merged e0 hfi

/-- C6, counterexample to the claim as stated: the needle `"aa\n"` (hex
digits plus a trailing newline) is not a word of the grammar
`^[0-9a-fA-F]+$`, yet with `verify_patch` enabled catalog construction
completes without a validation error, because the Python `re.match` lets
`$` also match just before a trailing newline. -/
theorem claim_C6_counterexample :
    specHexGrammar "aa\n" = false
    ∧ ({} : PatcherConfig).verify_patch = true
    ∧ initPatchManager (some (.doc newlineOverride, "patches.json")) {}
        = .ok [("fastboot", [("aa\n", "00207047")])] :=
  ⟨rfl, rfl, rfl⟩

theorem claim_C6_witness :
    initPatchManager (some (FileRead.notFound, "missing.json")) {}
      = .ok DEFAULT_PATCHES :=
  (claim_C6_amended .notFound "missing.json" {} DEFAULT_PATCHES rfl
    rfl).1.mpr (by decide)

/-- C3: `self.patches = self.DEFAULT_PATCHES.copy()` is a shallow copy,
so an update-mode merge into a category that already exists in the
defaults mutates the inner dict object shared with the class-level
`DEFAULT_PATCHES`: a second `PatchManager` constructed afterwards with
no override observes the merged needles in its own catalog. -/
theorem claim_C3 (cat : String) (a : Nat) (ps : RuleDict)
    (h : initialPyState.defaultPatches.lookup cat = some a) :
    (secondManagerCatalog ⟨some "update", [(cat, .rules ps)]⟩).lookup cat
      = some (dictUpdate (heapGet initialPyState a) ps) := by
  by_cases h1 : cat = "fastboot"
  · subst h1
    have ha : a = 0 := by
      simpa [initialPyState, List.lookup] using h.symm
    subst ha
    rfl
  · by_cases h2 : cat = "dm_verity"
    · subst h2
      have ha : a = 1 := by
        simpa [initialPyState, List.lookup] using h.symm
      subst ha
      rfl
    · by_cases h3 : cat = "orange_state"
      · subst h3
        have ha : a = 2 := by
          simpa [initialPyState, List.lookup] using h.symm
        subst ha
        rfl
      · by_cases h4 : cat = "red_state"
        · subst h4
          have ha : a = 3 := by
            simpa [initialPyState, List.lookup] using h.symm
          subst ha
          rfl
        · exfalso
          have b1 : (cat == "fastboot") = false := by simp [h1]
          have b2 : (cat == "dm_verity") = false := by simp [h2]
          have b3 : (cat == "orange_state") = false := by simp [h3]
          have b4 : (cat == "red_state") = false := by simp [h4]
          simp [initialPyState, List.lookup, b1, b2, b3, b4] at h

theorem claim_C3_witness :
    (secondManagerCatalog
        ⟨some "update", [("fastboot", .rules [("aa", "bb")])]⟩).lookup
      "fastboot"
      = some (dictUpdate (heapGet initialPyState 0) [("aa", "bb")]) :=
  claim_C3 "fastboot" 0 [("aa", "bb")] rfl
